import Mathlib

/-!
Verification of the `PHPSecurityChecker` linter adapter
(`src/linters/php-security-checker.js`) against its specification.

The adapter is straight-line JavaScript; we embed it shallowly:
JavaScript values that can flow through `parseOutput` are modelled by the
inductive `Js`, the `JSON.parse` builtin by `jsonParse`, `Object.entries`
by `jsEntries`, property access by `jsGetProp` and `jsGetOwn`, `for...of`
iteration by `jsIterate`, and string interpolation by `jsToString`.
Thrown JavaScript exceptions are modelled by `Except`.
-/

/-- A JavaScript value as it can appear while `parseOutput` runs:
`undef` models the JavaScript value `undefined` (never produced by
`jsonParse`, but produced by property access on objects lacking the key);
`num` keeps the numeral as its source text, which is exact for every
number this adapter ever stringifies. -/
inductive Js where
  | undef
  | null
  | bool (b : Bool)
  | num (raw : String)
  | str (s : String)
  | arr (elems : List Js)
  | obj (fields : List (String × Js))

/-- The opening-brace character, written via its code point. -/
def lbrace : Char := Char.ofNat 123

/-- The closing-brace character, written via its code point. -/
def rbrace : Char := Char.ofNat 125

/-- The whitespace characters JSON allows between tokens. -/
def jsWhitespace (c : Char) : Bool :=
  c = ' ' || c = '\t' || c = '\n' || c = '\r'

/-- Drop leading JSON whitespace. -/
def skipWs : List Char → List Char
  | [] => []
  | c :: cs => if jsWhitespace c then skipWs cs else c :: cs

/-- Value of a hexadecimal digit, if the character is one. -/
def hexDigitVal (c : Char) : Option Nat :=
  if '0' ≤ c ∧ c ≤ '9' then some (c.toNat - 48)
  else if 'a' ≤ c ∧ c ≤ 'f' then some (c.toNat - 87)
  else if 'A' ≤ c ∧ c ≤ 'F' then some (c.toNat - 55)
  else none

/-- Decode the body of a JSON string literal (the opening quote already
consumed), returning the decoded characters and the rest of the input.
A `\u` escape is decoded with `Char.ofNat`; code points that are not
valid Lean characters degrade to the default of `Char.ofNat`, a limitation
that no input in this development exercises. -/
def parseStringChars : Nat → List Char → Option (List Char × List Char)
  | 0, _ => none
  | _, [] => none
  | fuel + 1, c :: cs =>
    if c = '"' then some ([], cs)
    else if c = '\\' then
      match cs with
      | [] => none
      | e :: cs2 =>
        let decoded : Option (Char × List Char) :=
          if e = '"' then some ( '"', cs2)
          else if e = '\\' then some ( '\\', cs2)
          else if e = '/' then some ( '/', cs2)
          else if e = 'b' then some (Char.ofNat 8, cs2)
          else if e = 'f' then some (Char.ofNat 12, cs2)
          else if e = 'n' then some (Char.ofNat 10, cs2)
          else if e = 'r' then some (Char.ofNat 13, cs2)
          else if e = 't' then some (Char.ofNat 9, cs2)
          else if e = 'u' then
            match cs2 with
            | h1 :: h2 :: h3 :: h4 :: cs3 =>
              match hexDigitVal h1, hexDigitVal h2, hexDigitVal h3, hexDigitVal h4 with
              | some v1, some v2, some v3, some v4 =>
                some (Char.ofNat (((v1 * 16 + v2) * 16 + v3) * 16 + v4), cs3)
              | _, _, _, _ => none
            | _ => none
          else none
        match decoded with
        | some (d, rest) =>
          match parseStringChars fuel rest with
          | some (ds, rest2) => some (d :: ds, rest2)
          | none => none
        | none => none
    else if c.toNat < 32 then none
    else
      match parseStringChars fuel cs with
      | some (ds, rest) => some (c :: ds, rest)
      | none => none

/-- Take the longest run of decimal digits. -/
def takeDigits : List Char → List Char × List Char
  | [] => ([], [])
  | c :: cs =>
    if c.isDigit then
      let (ds, rest) := takeDigits cs
      (c :: ds, rest)
    else ([], c :: cs)

/-- The integer part of a JSON number: `0`, or a nonzero digit followed
by digits. -/
def parseIntPart : List Char → Option (List Char × List Char)
  | [] => none
  | c :: cs =>
    if c = '0' then some ([c], cs)
    else if c.isDigit then
      let (ds, rest) := takeDigits cs
      some (c :: ds, rest)
    else none

/-- The optional fractional part of a JSON number. -/
def parseFracPart (cs : List Char) : Option (List Char × List Char) :=
  match cs with
  | '.' :: cs2 =>
    match takeDigits cs2 with
    | ([], _) => none
    | (ds, rest) => some ( '.' :: ds, rest)
  | _ => some ([], cs)

/-- The optional exponent part of a JSON number. -/
def parseExpPart (cs : List Char) : Option (List Char × List Char) :=
  match cs with
  | e :: cs2 =>
    if e = 'e' ∨ e = 'E' then
      let (sign, cs3) :=
        match cs2 with
        | s :: cs4 => if s = '+' ∨ s = '-' then ([s], cs4) else (([] : List Char), s :: cs4)
        | [] => (([] : List Char), ([] : List Char))
      match takeDigits cs3 with
      | ([], _) => none
      | (ds, rest) => some (e :: sign ++ ds, rest)
    else some ([], e :: cs2)
  | [] => some ([], [])

/-- A complete JSON number, returned as its source text. -/
def parseNumber (cs : List Char) : Option (String × List Char) :=
  let (sign, cs1) :=
    match cs with
    | '-' :: rest => ((['-'] : List Char), rest)
    | _ => (([] : List Char), cs)
  match parseIntPart cs1 with
  | none => none
  | some (ip, cs2) =>
    match parseFracPart cs2 with
    | none => none
    | some (fp, cs3) =>
      match parseExpPart cs3 with
      | none => none
      | some (ep, cs4) => some (String.mk (sign ++ ip ++ fp ++ ep), cs4)

/-- Consume an exact run of characters. -/
def stripRunChars : List Char → List Char → Option (List Char)
  | [], cs => some cs
  | _ :: _, [] => none
  | p :: ps, c :: cs => if c = p then stripRunChars ps cs else none

/-- Remove the (unique) binding of a key from the field list of an object. -/
def removeKeyFirst (k : String) : List (String × Js) → List (String × Js)
  | [] => []
  | (k2, v2) :: rest => if k2 = k then rest else (k2, v2) :: removeKeyFirst k rest

/-- Combine a parsed field with the fields parsed after it, with
`JSON.parse` duplicate-key semantics: a repeated key keeps its first
position but takes the last value. -/
def insertFieldFront (k : String) (v : Js) (fields : List (String × Js)) :
    List (String × Js) :=
  match fields.lookup k with
  | some v2 => (k, v2) :: removeKeyFirst k fields
  | none => (k, v) :: fields

mutual

/-- Parse one JSON value. Fuel decreases on every recursive call; the
top-level entry point supplies enough for any input of its length. -/
def parseValue : Nat → List Char → Option (Js × List Char)
  | 0, _ => none
  | fuel + 1, cs =>
    match skipWs cs with
    | [] => none
    | c :: cs1 =>
      if c = '"' then
        match parseStringChars (cs1.length + 1) cs1 with
        | some (chars, rest) => some (Js.str (String.mk chars), rest)
        | none => none
      else if c = lbrace then
        match skipWs cs1 with
        | c2 :: cs2 =>
          if c2 = rbrace then some (Js.obj [], cs2)
          else
            match parseFields fuel (c2 :: cs2) with
            | some (fields, rest) => some (Js.obj fields, rest)
            | none => none
        | [] => none
      else if c = '[' then
        match skipWs cs1 with
        | c2 :: cs2 =>
          if c2 = ']' then some (Js.arr [], cs2)
          else
            match parseElems fuel (c2 :: cs2) with
            | some (elems, rest) => some (Js.arr elems, rest)
            | none => none
        | [] => none
      else if c = 't' then
        match stripRunChars ['r', 'u', 'e'] cs1 with
        | some rest => some (Js.bool true, rest)
        | none => none
      else if c = 'f' then
        match stripRunChars ['a', 'l', 's', 'e'] cs1 with
        | some rest => some (Js.bool false, rest)
        | none => none
      else if c = 'n' then
        match stripRunChars ['u', 'l', 'l'] cs1 with
        | some rest => some (Js.null, rest)
        | none => none
      else
        match parseNumber (c :: cs1) with
        | some (raw, rest) => some (Js.num raw, rest)
        | none => none

/-- Parse the comma-separated elements of a nonempty JSON array, up to
and including the closing bracket. -/
def parseElems : Nat → List Char → Option (List Js × List Char)
  | 0, _ => none
  | fuel + 1, cs =>
    match parseValue fuel cs with
    | none => none
    | some (v, rest) =>
      match skipWs rest with
      | ',' :: rest2 =>
        match parseElems fuel rest2 with
        | some (vs, rest3) => some (v :: vs, rest3)
        | none => none
      | ']' :: rest2 => some ([v], rest2)
      | _ => none

/-- Parse the members of a nonempty JSON object, up to and including the
closing brace. -/
def parseFields : Nat → List Char → Option (List (String × Js) × List Char)
  | 0, _ => none
  | fuel + 1, cs =>
    match skipWs cs with
    | '"' :: cs1 =>
      match parseStringChars (cs1.length + 1) cs1 with
      | none => none
      | some (kchars, cs2) =>
        match skipWs cs2 with
        | ':' :: cs3 =>
          match parseValue fuel cs3 with
          | none => none
          | some (v, rest) =>
            match skipWs rest with
            | ',' :: rest2 =>
              match parseFields fuel rest2 with
              | some (fields, rest3) =>
                some (insertFieldFront (String.mk kchars) v fields, rest3)
              | none => none
            | c :: rest2 =>
              if c = rbrace then some ([(String.mk kchars, v)], rest2) else none
            | [] => none
        | _ => none
    | _ => none

end

/-- Model of the ECMAScript `JSON.parse` builtin, restricted to what the
adapter observes of it: which strings decode, the decoded value
(duplicate keys resolved last-value-wins in first position, as V8 does),
and the fact of failure. Engine-specific failure messages are modelled
by fixed text; the adapter only ever embeds that text into a larger
message. -/
def jsonParse (s : String) : Except String Js :=
  match parseValue (2 * s.length + 2) s.toList with
  | some (v, rest) =>
    if skipWs rest = [] then Except.ok v
    else Except.error "Unexpected non-whitespace character after JSON data"
  | none => Except.error "Unexpected token in JSON"

mutual

/-- Model of JavaScript string conversion (`ToString`) as used by
template literals, for the values this adapter can interpolate.
A number stringifies as its stored source text; exact for the integral
numerals relevant here. -/
def jsToString : Js → String
  | Js.undef => "undefined"
  | Js.null => "null"
  | Js.bool true => "true"
  | Js.bool false => "false"
  | Js.num raw => raw
  | Js.str s => s
  | Js.obj _ => "[object Object]"
  | Js.arr xs => String.intercalate "," (jsToStringElems xs)

/-- Elements of an array under `ToString`: `null` and `undefined`
become empty strings, as `Array.prototype.join` prescribes. -/
def jsToStringElems : List Js → List String
  | [] => []
  | Js.null :: xs => "" :: jsToStringElems xs
  | Js.undef :: xs => "" :: jsToStringElems xs
  | x :: xs => jsToString x :: jsToStringElems xs

end

/-- The numeric value of an array-index key, when the key is the
canonical decimal form of an integer below 2^32 - 1 (the ECMAScript
array-index range). Such keys are enumerated first, in ascending order,
by `Object.entries`. -/
def canonicalIndex (s : String) : Option Nat :=
  match s.toList with
  | [] => none
  | c :: cs =>
    if c = '0' then (if cs = [] then some 0 else none)
    else if (c :: cs).all Char.isDigit then
      let n := (c :: cs).foldl (fun acc d => acc * 10 + (d.toNat - 48)) 0
      if n ≤ 4294967294 then some n else none
    else none

/-- Insert into a list of index-keyed entries, keeping ascending index
order. -/
def insertByIdx (p : Nat × String × Js) :
    List (Nat × String × Js) → List (Nat × String × Js)
  | [] => [p]
  | q :: qs => if p.1 < q.1 then p :: q :: qs else q :: insertByIdx p qs

/-- Sort index-keyed entries by ascending index. -/
def sortByIdx : List (Nat × String × Js) → List (Nat × String × Js)
  | [] => []
  | p :: ps => insertByIdx p (sortByIdx ps)

/-- Pair each list element with its decimal position, starting at the
given index. -/
def enumEntries : Nat → List Js → List (String × Js)
  | _, [] => []
  | i, v :: vs => (toString i, v) :: enumEntries (i + 1) vs

/-- Model of `Object.entries`: throws a `TypeError` on `null` and
`undefined`; on an object yields its own enumerable string-keyed
entries, array-index keys first in ascending order and the remaining
keys in insertion order; on an array or string yields index/element
entries; on other primitives yields nothing. -/
def jsEntries : Js → Except String (List (String × Js))
  | Js.null => Except.error "TypeError: Cannot convert null to object"
  | Js.undef => Except.error "TypeError: Cannot convert undefined to object"
  | Js.obj fields =>
    let idxed := fields.filterMap (fun p =>
      match canonicalIndex p.1 with
      | some n => some (n, p.1, p.2)
      | none => none)
    let plain := fields.filter (fun p => (canonicalIndex p.1).isNone)
    Except.ok ((sortByIdx idxed).map (fun q => (q.2.1, q.2.2)) ++ plain)
  | Js.arr xs => Except.ok (enumEntries 0 xs)
  | Js.str s => Except.ok (enumEntries 0 (s.toList.map (fun c => Js.str c.toString)))
  | _ => Except.ok []

/-- Property lookup on a value known not to be `null` or `undefined`:
objects look up the key; strings and arrays expose `length` and their
indices; every other access yields `undefined`. -/
def jsGetOwn : Js → String → Js
  | Js.obj fields, k =>
    match fields.lookup k with
    | some v => v
    | none => Js.undef
  | Js.str s, k =>
    if k = "length" then Js.num (toString s.length)
    else
      match canonicalIndex k with
      | some i =>
        match s.toList.get? i with
        | some c => Js.str c.toString
        | none => Js.undef
      | none => Js.undef
  | Js.arr xs, k =>
    if k = "length" then Js.num (toString xs.length)
    else
      match canonicalIndex k with
      | some i => (xs.get? i).getD Js.undef
      | none => Js.undef
  | _, _ => Js.undef

/-- Model of JavaScript property access `v.k`: a `TypeError` on `null`
and `undefined`, otherwise `jsGetOwn`. -/
def jsGetProp (v : Js) (k : String) : Except String Js :=
  match v with
  | Js.null =>
    Except.error ("TypeError: Cannot read properties of null (reading " ++ k ++ ")")
  | Js.undef =>
    Except.error ("TypeError: Cannot read properties of undefined (reading " ++ k ++ ")")
  | _ => Except.ok (jsGetOwn v k)

/-- Model of `for...of` iteration: arrays yield their elements, strings
yield their characters, every other value is not iterable and throws a
`TypeError`. -/
def jsIterate : Js → Except String (List Js)
  | Js.arr xs => Except.ok xs
  | Js.str s => Except.ok (s.toList.map (fun c => Js.str c.toString))
  | _ => Except.error "TypeError: value is not iterable"

/-- Whether a value is `null` or `undefined` (the values object
destructuring throws on). -/
def isNullOrUndef : Js → Bool
  | Js.null => true
  | Js.undef => true
  | _ => false

/-- The raw output of a lint command: exit status, captured stdout and
stderr (`{status, stdout, stderr}` in the source). -/
structure RawOutput where
  status : Int
  stdout : String
  stderr : String
deriving DecidableEq

/-- One normalized finding as pushed by `parseOutput` (lines 79-84 of
the source): `firstLine` and `lastLine` receive the `cve` value of the
advisory unconverted, so they are modelled as JavaScript values. -/
structure LintEntry where
  path : String
  firstLine : Js
  lastLine : Js
  message : String

/-- The normalized lint result (`LintResult` of
`src/utils/lint-result`): a success flag and the three severity
buckets. -/
structure LintResult where
  isSuccess : Bool
  error : List LintEntry
  warning : List LintEntry
  notice : List LintEntry

/-- Modelled from the spec: the result-initialization collaborator
`initLintResult` (in `src/utils/lint-result`, outside this fragment)
"produces an empty NormalizedResult with the three empty severity
buckets and `isSuccess` undefined until set"; the undefined flag is
modelled by a placeholder `false`, which `parseOutput` overwrites before
the record can be observed. -/
def initLintResult : LintResult :=
  { isSuccess := false, error := [], warning := [], notice := [] }

/-- The static `name` getter of the adapter. -/
def PHPSecurityChecker.name : String := "security-checker"

/-- An error escaping `parseOutput`: `thrown` is the `Error` the
function itself constructs on a JSON decode failure (line 72), while
`typeError` is an engine-raised `TypeError` escaping the extraction
loop. -/
inductive ParseErr where
  | thrown (message : String)
  | typeError (message : String)

/-- The finding built for one advisory (lines 79-84 of the source):
path interpolates the dependency name and the `version` property of the value
property, the CVE value flows into both line markers, and the message
interpolates `title` and `link`. -/
def lintEntryFor (dependency : String) (value advisor : Js) : LintEntry :=
  { path := dependency ++ " version: " ++ jsToString (jsGetOwn value "version") ++ " "
    firstLine := jsGetOwn advisor "cve"
    lastLine := jsGetOwn advisor "cve"
    message := jsToString (jsGetOwn advisor "title") ++ " (" ++
      jsToString (jsGetOwn advisor "link") ++ ")" }

/-- The inner loop of `parseOutput` (lines 77-86): destructuring a
`null` or `undefined` advisory throws; otherwise each advisory yields
one finding, in iteration order. -/
def processAdvisors (dependency : String) (value : Js) :
    List Js → Except String (List LintEntry)
  | [] => Except.ok []
  | advisor :: rest =>
    if isNullOrUndef advisor then
      Except.error "TypeError: Cannot destructure advisory properties"
    else
      match processAdvisors dependency value rest with
      | Except.ok entries => Except.ok (lintEntryFor dependency value advisor :: entries)
      | Except.error e => Except.error e

/-- The outer loop of `parseOutput` (lines 76-88): for each entry of the
decoded value, read its `advisories` property (which throws on a `null`
or `undefined` entry value), iterate it (which throws when it is not
iterable), and collect the findings of its advisories in order. -/
def processEntries : List (String × Js) → Except String (List LintEntry)
  | [] => Except.ok []
  | (dependency, value) :: rest =>
    match jsGetProp value "advisories" with
    | Except.error e => Except.error e
    | Except.ok advField =>
      match jsIterate advField with
      | Except.error e => Except.error e
      | Except.ok advisors =>
        match processAdvisors dependency value advisors with
        | Except.error e => Except.error e
        | Except.ok entries =>
          match processEntries rest with
          | Except.ok more => Except.ok (entries ++ more)
          | Except.error e => Except.error e

/-- The function `PHPSecurityChecker.parseOutput` (lines 64-92): initialize the
result, set `isSuccess` from the exit status, decode stdout (wrapping a
decode failure in the message the adapter itself formats), then walk the
decoded entries pushing one finding per advisory into the error
bucket. The directory argument is unused by the source. -/
def parseOutput (dir : String) (output : RawOutput) : Except ParseErr LintResult :=
  let lintResult := initLintResult
  let lintResult := { lintResult with isSuccess := output.status == 0 }
  match jsonParse output.stdout with
  | Except.error errMessage =>
    Except.error (ParseErr.thrown ("Error parsing " ++ PHPSecurityChecker.name ++
      " JSON output: " ++ errMessage ++ ". Output: \"" ++ output.stdout ++ "\""))
  | Except.ok outputJson =>
    match jsEntries outputJson with
    | Except.error e => Except.error (ParseErr.typeError e)
    | Except.ok entries =>
      match processEntries entries with
      | Except.error e => Except.error (ParseErr.typeError e)
      | Except.ok findings =>
        Except.ok { lintResult with error := lintResult.error ++ findings }

/-- The option object passed to the process-invocation collaborator
`run`: the working directory and whether a non-zero exit status is
returned as data instead of raised. -/
structure RunOptions where
  dir : String
  ignoreErrors : Bool
deriving DecidableEq

/-- The observable behaviour of one `lint` call: the warnings emitted
through the logging collaborator, the command string and options handed
to `run`, and the raw output returned. -/
structure LintEffects where
  warnings : List String
  command : String
  options : RunOptions
  result : RawOutput
deriving DecidableEq

/-- The function `PHPSecurityChecker.lint` (lines 46-55), with the process-invocation
collaborator `run` passed explicitly (modelled from the spec: `run`
lives in `src/utils/action`, outside this fragment, and with
`ignoreErrors` set it returns any exit status as data). When `fix` is
requested, a warning naming the adapter and the joined extensions is
logged; the command string never mentions the extensions or the fix
flag. -/
def lint (runImpl : String → RunOptions → RawOutput) (dir : String)
    (extensions : List String) (args : String) (fix : Bool) (pfx : String) :
    LintEffects :=
  let extensionsArg := String.intercalate "," extensions
  let warnings :=
    if fix then [PHPSecurityChecker.name ++ " does not support auto-fixing " ++ extensionsArg]
    else []
  let command := pfx ++ " security-checker security:check composer.lock " ++ args ++
    " --no-dev --format=json"
  let options : RunOptions := { dir := dir, ignoreErrors := true }
  { warnings := warnings
    command := command
    options := options
    result := runImpl command options }

/-- The observable behaviour of one `verifySetup` call: the version
probes performed through `run`, and the outcome (an error message for a
thrown `Error`, or success). -/
structure SetupOutcome where
  runCalls : List (String × RunOptions)
  result : Except String Unit

/-- The function `PHPSecurityChecker.verifySetup` (lines 23-35), with the
collaborators passed explicitly (modelled from the spec: the
prerequisite probe `commandExists` and the process invoker `run` live
outside this fragment; without `ignoreErrors`, `run` raises on
failure). A missing PHP prerequisite throws before any tool invocation;
a failing tool version probe is converted into the
not-installed error. -/
def verifySetup (commandExists : String → Bool)
    (runImpl : String → RunOptions → Except String RawOutput)
    (dir : String) (pfx : String) : SetupOutcome :=
  if commandExists "php" then
    let command := pfx ++ " security-checker --version"
    let options : RunOptions := { dir := dir, ignoreErrors := false }
    match runImpl command options with
    | Except.ok _ => { runCalls := [(command, options)], result := Except.ok () }
    | Except.error _ =>
      { runCalls := [(command, options)],
        result := Except.error (PHPSecurityChecker.name ++ " is not installed") }
  else
    { runCalls := [], result := Except.error "PHP is not installed" }

/-- The advisory list carried by a decoded dependency value: the
contents of its `advisories` property when that property is an array,
and empty otherwise. Used to state what `parseOutput` emits. -/
def advisoriesOf (value : Js) : List Js :=
  match jsGetOwn value "advisories" with
  | Js.arr advs => advs
  | _ => []

/-- A decoded dependency value through which the extraction loop runs
without throwing: it is not `null` or `undefined`, its `advisories`
property is an array, and no advisory in it is `null` or `undefined`.
Every value of the documented wire format satisfies this. -/
def wfValue (value : Js) : Prop :=
  value ≠ Js.null ∧ value ≠ Js.undef ∧
  ∃ advs : List Js, jsGetOwn value "advisories" = Js.arr advs ∧
    ∀ a ∈ advs, a ≠ Js.null ∧ a ≠ Js.undef

/-- A concrete well-formed advisory, for witnesses. -/
def sampleAdvisory : Js :=
  Js.obj [("cve", Js.str "C"), ("link", Js.str "L"), ("title", Js.str "T")]

/-- A concrete well-formed dependency value, for witnesses. -/
def sampleValue : Js :=
  Js.obj [("version", Js.str "1"), ("advisories", Js.arr [sampleAdvisory])]

/-- The serialized form of an object mapping dependency "a" to
`sampleValue`, for witnesses. -/
def sampleStdout : String :=
  "\x7b\"a\":\x7b\"version\":\"1\",\"advisories\":[\x7b\"cve\":\"C\",\"link\":\"L\",\"title\":\"T\"\x7d]\x7d\x7d"

/-- Values that are not `null` or `undefined` report `false` to the
destructuring guard. -/
theorem isNullOrUndef_eq_false {a : Js} (h1 : a ≠ Js.null) (h2 : a ≠ Js.undef) :
    isNullOrUndef a = false := by
  cases a <;> simp [isNullOrUndef] <;> simp_all

/-- Property access on a value that is not `null` or `undefined` never
throws. -/
theorem jsGetProp_eq_own {v : Js} (h1 : v ≠ Js.null) (h2 : v ≠ Js.undef) (k : String) :
    jsGetProp v k = Except.ok (jsGetOwn v k) := by
  cases v <;> simp [jsGetProp] <;> simp_all

/-- On advisories that destructuring accepts, the inner loop emits one
finding per advisory, in order. -/
theorem processAdvisors_ok (dependency : String) (value : Js) (advisors : List Js)
    (h : ∀ a ∈ advisors, a ≠ Js.null ∧ a ≠ Js.undef) :
    processAdvisors dependency value advisors =
      Except.ok (advisors.map (lintEntryFor dependency value)) := by
  induction advisors with
  | nil => rfl
  | cons a rest ih =>
    have ha := h a (List.mem_cons_self a rest)
    have hrest : ∀ x ∈ rest, x ≠ Js.null ∧ x ≠ Js.undef :=
      fun x hx => h x (List.mem_cons_of_mem a hx)
    simp [processAdvisors, isNullOrUndef_eq_false ha.1 ha.2, ih hrest]

/-- On entries whose values are all well formed, the outer loop emits
the findings of every advisory of every entry, dependency-major then
advisory-minor. -/
theorem processEntries_ok (entries : List (String × Js))
    (h : ∀ p ∈ entries, wfValue p.2) :
    processEntries entries =
      Except.ok (entries.flatMap (fun p => (advisoriesOf p.2).map (lintEntryFor p.1 p.2))) := by
  induction entries with
  | nil => rfl
  | cons p rest ih =>
    obtain ⟨dependency, value⟩ := p
    obtain ⟨hn, hu, advs, hadv, hall⟩ := h (dependency, value) (List.mem_cons_self _ rest)
    have hrest : ∀ q ∈ rest, wfValue q.2 := fun q hq => h q (List.mem_cons_of_mem _ hq)
    simp [processEntries, jsGetProp_eq_own hn hu, hadv, jsIterate,
      processAdvisors_ok dependency value advs hall, ih hrest, advisoriesOf]

/-- Claim C1: whenever `parseOutput` returns a result, the result has
`isSuccess = true` exactly when the exit status of the raw output is 0,
independently of how many findings were extracted. -/
theorem parseOutput_isSuccess_iff_status_zero (dir : String) (output : RawOutput)
    (res : LintResult) (h : parseOutput dir output = Except.ok res) :
    res.isSuccess = true ↔ output.status = 0 := by
  unfold parseOutput at h
  cases hj : jsonParse output.stdout with
  | error e => simp only [hj] at h; cases h
  | ok json =>
    simp only [hj] at h
    cases he : jsEntries json with
    | error e => simp only [he] at h; cases h
    | ok entries =>
      simp only [he] at h
      cases hp : processEntries entries with
      | error e => simp only [hp] at h; cases h
      | ok findings =>
        simp only [hp, Except.ok.injEq] at h
        subst h
        simp [initLintResult]

/-- Witness for claim C1: a concrete call with status 0 and empty JSON
object output. -/
theorem parseOutput_isSuccess_iff_status_zero_witness :
    parseOutput "d" { status := 0, stdout := "\x7b\x7d", stderr := "" } =
      Except.ok { isSuccess := true, error := [], warning := [], notice := [] } ∧
    (({ isSuccess := true, error := [], warning := [], notice := [] } : LintResult).isSuccess =
        true ↔
      ({ status := 0, stdout := "\x7b\x7d", stderr := "" } : RawOutput).status = 0) :=
  ⟨rfl, parseOutput_isSuccess_iff_status_zero "d"
    { status := 0, stdout := "\x7b\x7d", stderr := "" }
    { isSuccess := true, error := [], warning := [], notice := [] } rfl⟩

/-- Counterexample to claim C2 as stated: the payload `[]` decodes as
JSON, is not an object of dependency records, and yet `parseOutput`
silently returns a normal empty result instead of failing. -/
theorem parseOutput_array_silently_skipped :
    jsonParse "[]" = Except.ok (Js.arr []) ∧
    parseOutput "d" { status := (1 : Int), stdout := "[]", stderr := "" } =
      Except.ok { isSuccess := false, error := [], warning := [], notice := [] } :=
  ⟨rfl, rfl⟩

/-- Claim C2 (amended): the formatted output-parse error (the one
carrying the raw stdout) is raised exactly when stdout fails to decode
as JSON; a decoded payload that deviates from the wire format never
surfaces as that error — it either raises a bare engine type error or
is silently skipped. -/
theorem parseOutput_thrown_iff_decode_failure (dir : String) (output : RawOutput) :
    (∃ m, parseOutput dir output = Except.error (ParseErr.thrown m)) ↔
    (∃ e, jsonParse output.stdout = Except.error e) := by
  unfold parseOutput
  cases hj : jsonParse output.stdout with
  | error e => simp
  | ok json =>
    simp only [Except.ok.injEq]
    constructor
    · rintro ⟨m, hm⟩
      cases he : jsEntries json with
      | error e2 => simp only [he] at hm; cases hm
      | ok entries =>
        simp only [he] at hm
        cases hp : processEntries entries with
        | error e3 => simp only [hp] at hm; cases hm
        | ok findings => simp only [hp] at hm; cases hm
    · rintro ⟨e, he⟩; cases he

/-- Claim C3: on stdout decoding to a value all of whose entries are
well formed, `parseOutput` succeeds with the error bucket holding one
finding per advisory in iteration order, dependency-major then
advisory-minor, with empty warning and notice buckets, and the finding
count is the sum over entries of their advisory counts. -/
theorem parseOutput_wellFormed_findings (dir : String) (output : RawOutput)
    (json : Js) (entries : List (String × Js))
    (hj : jsonParse output.stdout = Except.ok json)
    (he : jsEntries json = Except.ok entries)
    (hwf : ∀ p ∈ entries, wfValue p.2) :
    parseOutput dir output = Except.ok
      { isSuccess := output.status == 0
        error := entries.flatMap (fun p => (advisoriesOf p.2).map (lintEntryFor p.1 p.2))
        warning := []
        notice := [] } ∧
    (entries.flatMap (fun p => (advisoriesOf p.2).map (lintEntryFor p.1 p.2))).length =
      (entries.map (fun p => (advisoriesOf p.2).length)).sum := by
  constructor
  · unfold parseOutput
    simp only [hj, he, processEntries_ok entries hwf]
    simp [initLintResult]
  · rw [List.length_flatMap]
    congr 1
    apply List.map_congr_left
    intro p _
    simp [Function.comp]

set_option maxRecDepth 100000 in
/-- Witness for claim C3: one dependency with one advisory. -/
theorem parseOutput_wellFormed_findings_witness :
    jsonParse sampleStdout = Except.ok (Js.obj [("a", sampleValue)]) ∧
    jsEntries (Js.obj [("a", sampleValue)]) = Except.ok [("a", sampleValue)] ∧
    (parseOutput "d" { status := 0, stdout := sampleStdout, stderr := "" } = Except.ok
      { isSuccess := ((0 : Int) == 0)
        error := [("a", sampleValue)].flatMap
          (fun p => (advisoriesOf p.2).map (lintEntryFor p.1 p.2))
        warning := []
        notice := [] } ∧
     ([("a", sampleValue)].flatMap
        (fun p => (advisoriesOf p.2).map (lintEntryFor p.1 p.2))).length =
       ([("a", sampleValue)].map (fun p => (advisoriesOf p.2).length)).sum) :=
  ⟨rfl, rfl, parseOutput_wellFormed_findings "d"
    { status := 0, stdout := sampleStdout, stderr := "" }
    (Js.obj [("a", sampleValue)]) [("a", sampleValue)] rfl rfl
    (by
      intro p hp
      simp only [List.mem_singleton] at hp
      subst hp
      refine ⟨by simp [sampleValue], by simp [sampleValue], [sampleAdvisory], rfl, ?_⟩
      intro a ha
      simp only [List.mem_singleton] at ha
      subst ha
      exact ⟨by simp [sampleAdvisory], by simp [sampleAdvisory]⟩)⟩

/-- Claim C4: a finding emitted for a dependency whose value carries a
string `version` and an advisory carrying string `cve`, `link` and
`title` has path `<dependency> version: <version> ` (with trailing
space), both line markers equal to the cve string, and message
`<title> (<link>)`. -/
theorem lintEntryFor_shape (dependency version c l t : String) (value advisor : Js)
    (hv : jsGetOwn value "version" = Js.str version)
    (hc : jsGetOwn advisor "cve" = Js.str c)
    (hl : jsGetOwn advisor "link" = Js.str l)
    (ht : jsGetOwn advisor "title" = Js.str t) :
    lintEntryFor dependency value advisor =
      { path := dependency ++ " version: " ++ version ++ " "
        firstLine := Js.str c
        lastLine := Js.str c
        message := t ++ " (" ++ l ++ ")" } := by
  simp [lintEntryFor, hv, hc, hl, ht, jsToString]

/-- Witness for claim C4: the guzzle example of the specification. -/
theorem lintEntryFor_shape_witness :
    lintEntryFor "guzzlehttp/guzzle"
        (Js.obj [("version", Js.str "6.2.0")])
        (Js.obj [("cve", Js.str "CVE-2016-5385"), ("link", Js.str "https://x"),
          ("title", Js.str "Proxy header vuln")]) =
      { path := "guzzlehttp/guzzle" ++ " version: " ++ "6.2.0" ++ " "
        firstLine := Js.str "CVE-2016-5385"
        lastLine := Js.str "CVE-2016-5385"
        message := "Proxy header vuln" ++ " (" ++ "https://x" ++ ")" } :=
  lintEntryFor_shape "guzzlehttp/guzzle" "6.2.0" "CVE-2016-5385" "https://x"
    "Proxy header vuln"
    (Js.obj [("version", Js.str "6.2.0")])
    (Js.obj [("cve", Js.str "CVE-2016-5385"), ("link", Js.str "https://x"),
      ("title", Js.str "Proxy header vuln")]) rfl rfl rfl rfl

/-- Claim C5: when stdout does not decode as JSON, `parseOutput` fails
with the formatted error whose message embeds the decode error message
and the raw stdout verbatim; both therefore occur as substrings of the
message. -/
theorem parseOutput_decode_failure_message (dir : String) (output : RawOutput) (e : String)
    (h : jsonParse output.stdout = Except.error e) :
    parseOutput dir output = Except.error (ParseErr.thrown
      ("Error parsing " ++ PHPSecurityChecker.name ++ " JSON output: " ++ e ++
        ". Output: \"" ++ output.stdout ++ "\"")) ∧
    e.toList <:+: ("Error parsing " ++ PHPSecurityChecker.name ++ " JSON output: " ++ e ++
        ". Output: \"" ++ output.stdout ++ "\"").toList ∧
    output.stdout.toList <:+: ("Error parsing " ++ PHPSecurityChecker.name ++
        " JSON output: " ++ e ++ ". Output: \"" ++ output.stdout ++ "\"").toList := by
  refine ⟨?_, ?_, ?_⟩
  · unfold parseOutput
    simp only [h]
  · exact ⟨("Error parsing " ++ PHPSecurityChecker.name ++ " JSON output: ").toList,
      (". Output: \"" ++ output.stdout ++ "\"").toList,
      by simp [String.toList, String.data_append]⟩
  · exact ⟨("Error parsing " ++ PHPSecurityChecker.name ++ " JSON output: " ++ e ++
      ". Output: \"").toList, ("\"" : String).toList,
      by simp [String.toList, String.data_append]⟩

/-- Witness for claim C5: the literal payload `not json`; its text
occurs in the raised message. -/
theorem parseOutput_decode_failure_message_witness :
    jsonParse "not json" = Except.error "Unexpected token in JSON" ∧
    (parseOutput "d" { status := 0, stdout := "not json", stderr := "" } =
        Except.error (ParseErr.thrown
          ("Error parsing " ++ PHPSecurityChecker.name ++ " JSON output: " ++
            "Unexpected token in JSON" ++ ". Output: \"" ++ "not json" ++ "\"")) ∧
      ("Unexpected token in JSON" : String).toList <:+:
        ("Error parsing " ++ PHPSecurityChecker.name ++ " JSON output: " ++
          "Unexpected token in JSON" ++ ". Output: \"" ++ "not json" ++ "\"").toList ∧
      ("not json" : String).toList <:+:
        ("Error parsing " ++ PHPSecurityChecker.name ++ " JSON output: " ++
          "Unexpected token in JSON" ++ ". Output: \"" ++ "not json" ++ "\"").toList) :=
  ⟨rfl, parseOutput_decode_failure_message "d"
    { status := 0, stdout := "not json", stderr := "" } "Unexpected token in JSON" rfl⟩

/-- Claim C6: a failing PHP probe makes `verifySetup` fail naming the
prerequisite without ever invoking the tool; with the probe passing, a
failing tool version invocation makes it fail naming the adapter, and a
succeeding one makes it succeed. -/
theorem verifySetup_probe_and_tool (commandExists : String → Bool)
    (runImpl : String → RunOptions → Except String RawOutput) (dir pfx : String) :
    (commandExists "php" = false →
      verifySetup commandExists runImpl dir pfx =
        { runCalls := [], result := Except.error "PHP is not installed" }) ∧
    (commandExists "php" = true →
      (∀ e, runImpl (pfx ++ " security-checker --version")
          { dir := dir, ignoreErrors := false } = Except.error e →
        verifySetup commandExists runImpl dir pfx =
          { runCalls := [(pfx ++ " security-checker --version",
              { dir := dir, ignoreErrors := false })],
            result := Except.error (PHPSecurityChecker.name ++ " is not installed") }) ∧
      (∀ r, runImpl (pfx ++ " security-checker --version")
          { dir := dir, ignoreErrors := false } = Except.ok r →
        verifySetup commandExists runImpl dir pfx =
          { runCalls := [(pfx ++ " security-checker --version",
              { dir := dir, ignoreErrors := false })],
            result := Except.ok () })) := by
  refine ⟨fun hfalse => ?_, fun htrue => ⟨fun e herr => ?_, fun r hok => ?_⟩⟩
  · simp [verifySetup, hfalse]
  · simp [verifySetup, htrue, herr]
  · simp [verifySetup, htrue, hok]

/-- Witness for claim C6: a probe that reports PHP missing
short-circuits the setup check. -/
theorem verifySetup_probe_and_tool_witness :
    ((fun _ : String => false) "php" = false) ∧
    verifySetup (fun _ => false)
        (fun _ _ => Except.ok { status := 0, stdout := "", stderr := "" }) "d" "p" =
      { runCalls := [], result := Except.error "PHP is not installed" } :=
  ⟨rfl, (verifySetup_probe_and_tool (fun _ => false)
    (fun _ _ => Except.ok { status := 0, stdout := "", stderr := "" }) "d" "p").1 rfl⟩

/-- Claim C7: requesting a fix never changes the command `lint` builds,
and emits exactly one warning naming the adapter and the joined
extensions, after which the invocation proceeds normally. -/
theorem lint_fix_same_command_one_warning (runImpl : String → RunOptions → RawOutput)
    (dir : String) (extensions : List String) (args pfx : String) :
    (lint runImpl dir extensions args true pfx).command =
      (lint runImpl dir extensions args false pfx).command ∧
    (lint runImpl dir extensions args true pfx).warnings =
      [PHPSecurityChecker.name ++ " does not support auto-fixing " ++
        String.intercalate "," extensions] ∧
    (lint runImpl dir extensions args true pfx).result =
      runImpl (lint runImpl dir extensions args true pfx).command
        (lint runImpl dir extensions args true pfx).options :=
  ⟨rfl, rfl, rfl⟩

/-- Claim C8: `lint` hands the command to the process-invocation
collaborator with `ignoreErrors` set, so a non-zero exit status is
returned as data, and returns exactly what the collaborator produced. -/
theorem lint_returns_collaborator_output (runImpl : String → RunOptions → RawOutput)
    (dir : String) (extensions : List String) (args : String) (fix : Bool) (pfx : String) :
    (lint runImpl dir extensions args fix pfx).options =
      { dir := dir, ignoreErrors := true } ∧
    (lint runImpl dir extensions args fix pfx).result =
      runImpl (lint runImpl dir extensions args fix pfx).command
        (lint runImpl dir extensions args fix pfx).options :=
  ⟨rfl, rfl⟩

/-- Claim C9: the result of `parseOutput` depends only on the status
and stdout of the raw output, not on the directory argument or the
stderr text. -/
theorem parseOutput_function_of_status_stdout (dir1 dir2 : String) (o1 o2 : RawOutput)
    (hs : o1.status = o2.status) (ho : o1.stdout = o2.stdout) :
    parseOutput dir1 o1 = parseOutput dir2 o2 := by
  obtain ⟨s1, t1, e1⟩ := o1
  obtain ⟨s2, t2, e2⟩ := o2
  simp only at hs ho
  subst hs; subst ho
  rfl

/-- Witness for claim C9: two calls differing only in directory and
stderr agree. -/
theorem parseOutput_function_of_status_stdout_witness :
    parseOutput "a" { status := 0, stdout := "[]", stderr := "x" } =
      parseOutput "b" { status := 0, stdout := "[]", stderr := "y" } :=
  parseOutput_function_of_status_stdout "a" "b"
    { status := 0, stdout := "[]", stderr := "x" }
    { status := 0, stdout := "[]", stderr := "y" } rfl rfl

/-- Claim C10: the command `lint` builds is exactly the fixed template
around the prefix and the extra arguments, and is unchanged by the
extension list and the fix flag. -/
theorem lint_command_is_template (runImpl : String → RunOptions → RawOutput)
    (dir : String) (extensions : List String) (args : String) (fix : Bool) (pfx : String) :
    (lint runImpl dir extensions args fix pfx).command =
      pfx ++ " security-checker security:check composer.lock " ++ args ++
        " --no-dev --format=json" ∧
    (∀ (extensions2 : List String) (fix2 : Bool),
      (lint runImpl dir extensions2 args fix2 pfx).command =
        (lint runImpl dir extensions args fix pfx).command) :=
  ⟨rfl, fun _ _ => rfl⟩
